import Mathlib

/-!
Shallow embedding of the Stripe billing reconciliation subsystem of
`crates/collab/src/api/billing.rs` (together with the
`billing_subscriptions` table model from
`crates/collab/src/db/tables/billing_subscription.rs`).

Async effects are modelled by explicit state passing over a `Db` record; the
Stripe API is modelled by an oracle (`StripeState` for customer retrieval and
an explicit list of page-fetch outcomes for the events list endpoint).
Fallible Rust code returning `anyhow::Result` is modelled with `Except Err`.
Network fetches and store writes are recorded in an explicit `Effect` trace
so that the "no fetch / no write" properties can be stated.
-/

/-- The status of a Stripe subscription, from
`crates/collab/src/db/tables/billing_subscription.rs`
(`StripeSubscriptionStatus`). -/
inductive StripeSubscriptionStatus where
  | incomplete
  | incompleteExpired
  | trialing
  | active
  | pastDue
  | canceled
  | unpaid
  | paused
deriving DecidableEq, Repr, Fintype

/-- The `stripe` crate's `SubscriptionStatus` enum (the provider's status
vocabulary), the source type of the `From` impl in `billing.rs`. -/
inductive SubscriptionStatus where
  | incomplete
  | incompleteExpired
  | trialing
  | active
  | pastDue
  | canceled
  | unpaid
  | paused
deriving DecidableEq, Repr, Fintype

/-- The `impl From<SubscriptionStatus> for StripeSubscriptionStatus` block in
`billing.rs` (lines 324-337): the status mapper. -/
def StripeSubscriptionStatus.ofSubscriptionStatus :
    SubscriptionStatus → StripeSubscriptionStatus
  | SubscriptionStatus.incomplete => StripeSubscriptionStatus.incomplete
  | SubscriptionStatus.incompleteExpired => StripeSubscriptionStatus.incompleteExpired
  | SubscriptionStatus.trialing => StripeSubscriptionStatus.trialing
  | SubscriptionStatus.active => StripeSubscriptionStatus.active
  | SubscriptionStatus.pastDue => StripeSubscriptionStatus.pastDue
  | SubscriptionStatus.canceled => StripeSubscriptionStatus.canceled
  | SubscriptionStatus.unpaid => StripeSubscriptionStatus.unpaid
  | SubscriptionStatus.paused => StripeSubscriptionStatus.paused

/-- A local user record (only the fields this subsystem reads). -/
structure User where
  id : Nat
  email : String
deriving DecidableEq, Repr

/-- The `billing_customer::Model` row: a local billing customer. -/
structure BillingCustomer where
  id : Nat
  user_id : Nat
  stripe_customer_id : String
deriving DecidableEq, Repr

/-- The `billing_subscription::Model` row from
`crates/collab/src/db/tables/billing_subscription.rs`. -/
structure BillingSubscription where
  id : Nat
  billing_customer_id : Nat
  stripe_subscription_id : String
  stripe_subscription_status : StripeSubscriptionStatus
  created_at : Nat
deriving DecidableEq, Repr

/-- The local store state. `now` is the store clock used for `created_at`
on insertion. -/
structure Db where
  users : List User
  billingCustomers : List BillingCustomer
  billingSubscriptions : List BillingSubscription
  nextBillingCustomerId : Nat
  nextBillingSubscriptionId : Nat
  now : Nat
deriving DecidableEq, Repr

/-- A Stripe customer record (only the fields this subsystem reads:
`id` and `email`). -/
structure Customer where
  id : String
  email : Option String
deriving DecidableEq, Repr

/-- The `stripe` crate's `Expandable<T>`: either a bare provider ID or a
materialized record. -/
inductive Expandable (α : Type) where
  | id (ident : String)
  | object (obj : α)
deriving DecidableEq, Repr

/-- A Stripe subscription object (the fields read by
`handle_customer_subscription_event`: `id`, `customer`, `status`). -/
structure StripeSubscription where
  id : String
  customer : Expandable Customer
  status : SubscriptionStatus
deriving DecidableEq, Repr

/-- The event types the poller matches on. All event types outside the
allow-list are collapsed into `other` (the `_ => {}` arm). -/
inductive EventType where
  | customerCreated
  | customerSubscriptionCreated
  | customerSubscriptionUpdated
  | customerSubscriptionPaused
  | customerSubscriptionResumed
  | customerSubscriptionDeleted
  | other
deriving DecidableEq, Repr

/-- The `stripe` crate's `EventObject`: the payload embedded in an event.
Payload variants not read by this subsystem are collapsed into `other`. -/
inductive EventObject where
  | customer (c : Customer)
  | subscription (s : StripeSubscription)
  | other
deriving DecidableEq, Repr

/-- The `event.data` field of a Stripe event. -/
structure EventData where
  object : EventObject
deriving DecidableEq, Repr

/-- A Stripe event (`stripe::Event`): the fields read are `id`, `type_`
and `data.object`. -/
structure StripeEvent where
  id : String
  type_ : EventType
  data : EventData
deriving DecidableEq, Repr

/-- One page of the Stripe events list endpoint: `events.data` and
`events.has_more`. -/
structure EventsPage where
  data : List StripeEvent
  hasMore : Bool
deriving DecidableEq, Repr

/-- Errors surfaced by the handlers (`anyhow` errors in the source). -/
inductive Err where
  | unexpectedPayload
  | billingCustomerNotFound
  | stripeApiError
deriving DecidableEq, Repr

/-- Network fetches and store writes performed by the subsystem, recorded
as a trace. Store reads are not effects for the purposes of the spec. -/
inductive Effect where
  | fetchCustomer (stripeCustomerId : String)
  | createBillingCustomer (stripeCustomerId : String)
  | upsertBillingSubscription (stripeSubscriptionId : String)
deriving DecidableEq, Repr

/-- The Stripe client oracle: `Customer::retrieve` modelled as a function
from customer ID to a fetched record or a transport failure. -/
structure StripeState where
  retrieveCustomer : String → Except Unit Customer

/-- Modelled from the spec: the local storage collaborator's
`get_user_by_email(email) -> Optional<User>` (the implementation lives in
the `collab` db crate, not under the provided sources). -/
def get_user_by_email (db : Db) (email : String) : Option User :=
  db.users.find? (fun u => u.email == email)

/-- Modelled from the spec: the local storage collaborator's
`get_billing_customer_by_stripe_customer_id(id) -> Optional<BillingCustomer>`
(the implementation lives in the `collab` db crate, not under the provided
sources). -/
def get_billing_customer_by_stripe_customer_id (db : Db) (ident : String) :
    Option BillingCustomer :=
  db.billingCustomers.find? (fun c => c.stripe_customer_id == ident)

/-- Modelled from the spec: the local storage collaborator's
`create_billing_customer(user_id, provider_customer_id) -> BillingCustomer`
(the implementation lives in the `collab` db crate, not under the provided
sources). Inserts a fresh row and returns it. -/
def create_billing_customer (db : Db) (userId : Nat) (stripeCustomerId : String) :
    Db × BillingCustomer :=
  let row : BillingCustomer :=
    { id := db.nextBillingCustomerId
      user_id := userId
      stripe_customer_id := stripeCustomerId }
  ({ db with
      billingCustomers := db.billingCustomers ++ [row]
      nextBillingCustomerId := db.nextBillingCustomerId + 1 },
   row)

/-- Modelled from the spec: the local storage collaborator's
`upsert_billing_subscription_by_stripe_subscription_id` (the implementation
lives in the `collab` db crate, not under the provided sources). Per §4.3 of
the spec: if a row with this `stripe_subscription_id` exists, update its
`billing_customer_id` and `status` in place; otherwise insert a new row with
`created_at` set to the current time. -/
def upsert_billing_subscription_by_stripe_subscription_id (db : Db)
    (billingCustomerId : Nat) (stripeSubscriptionId : String)
    (status : StripeSubscriptionStatus) : Db :=
  if db.billingSubscriptions.any (fun r => r.stripe_subscription_id == stripeSubscriptionId) then
    { db with
        billingSubscriptions := db.billingSubscriptions.map (fun r =>
          if r.stripe_subscription_id == stripeSubscriptionId then
            { r with
                billing_customer_id := billingCustomerId
                stripe_subscription_status := status }
          else r) }
  else
    { db with
        billingSubscriptions := db.billingSubscriptions ++
          [{ id := db.nextBillingSubscriptionId
             billing_customer_id := billingCustomerId
             stripe_subscription_id := stripeSubscriptionId
             stripe_subscription_status := status
             created_at := db.now }]
        nextBillingSubscriptionId := db.nextBillingSubscriptionId + 1 }

/-- The `let customer_id = match &customer_or_id` binding at the top of
`find_or_create_billing_customer`: the provider customer ID named by either
form of the reference. -/
def customerIdOf : Expandable Customer → String
  | Expandable.id ident => ident
  | Expandable.object customer => customer.id

/-- The function `find_or_create_billing_customer` from `billing.rs` (lines 340-384).
Returns the handler outcome, the resulting store state, and the trace of
fetches/writes performed. -/
def find_or_create_billing_customer (st : StripeState) (db : Db)
    (customer_or_id : Expandable Customer) :
    Except Err (Option BillingCustomer) × Db × List Effect :=
  let customerId : String := customerIdOf customer_or_id
  -- If we already have a billing customer record associated with the Stripe
  -- customer, there's nothing more we need to do.
  match get_billing_customer_by_stripe_customer_id db customerId with
  | some billingCustomer => (Except.ok (some billingCustomer), db, [])
  | none =>
    -- If all we have is a customer ID, resolve it to a full customer record
    -- by hitting the Stripe API.
    let fetched : Except Err Customer × List Effect :=
      match customer_or_id with
      | Expandable.id ident =>
        match st.retrieveCustomer ident with
        | Except.ok customer => (Except.ok customer, [Effect.fetchCustomer ident])
        | Except.error _ => (Except.error Err.stripeApiError, [Effect.fetchCustomer ident])
      | Expandable.object customer => (Except.ok customer, [])
    match fetched with
    | (Except.error e, effs) => (Except.error e, db, effs)
    | (Except.ok customer, effs) =>
      match customer.email with
      | none => (Except.ok none, db, effs)
      | some email =>
        match get_user_by_email db email with
        | none => (Except.ok none, db, effs)
        | some user =>
          let created := create_billing_customer db user.id customer.id
          (Except.ok (some created.2), created.1,
            effs ++ [Effect.createBillingCustomer customer.id])

/-- The function `handle_customer_event` from `billing.rs` (lines 284-297): extract the
embedded customer object (bailing on a payload mismatch) and run the
customer resolver, ignoring its "not found" outcome. -/
def handle_customer_event (st : StripeState) (db : Db) (event : StripeEvent) :
    Except Err Unit × Db × List Effect :=
  match event.data.object with
  | EventObject.customer customer =>
    match find_or_create_billing_customer st db (Expandable.object customer) with
    | (Except.ok _, db1, effs) => (Except.ok (), db1, effs)
    | (Except.error e, db1, effs) => (Except.error e, db1, effs)
  | _ => (Except.error Err.unexpectedPayload, db, [])

/-- The function `handle_customer_subscription_event` from `billing.rs` (lines 299-322):
extract the embedded subscription object (bailing on a payload mismatch),
resolve its customer, fail if resolution yields "not found", and otherwise
upsert the subscription with the mapped status. -/
def handle_customer_subscription_event (st : StripeState) (db : Db)
    (event : StripeEvent) : Except Err Unit × Db × List Effect :=
  match event.data.object with
  | EventObject.subscription subscription =>
    match find_or_create_billing_customer st db subscription.customer with
    | (Except.ok (some billingCustomer), db1, effs) =>
      let db2 := upsert_billing_subscription_by_stripe_subscription_id db1
        billingCustomer.id subscription.id
        (StripeSubscriptionStatus.ofSubscriptionStatus subscription.status)
      (Except.ok (), db2,
        effs ++ [Effect.upsertBillingSubscription subscription.id])
    | (Except.ok none, db1, effs) => (Except.error Err.billingCustomerNotFound, db1, effs)
    | (Except.error e, db1, effs) => (Except.error e, db1, effs)
  | _ => (Except.error Err.unexpectedPayload, db, [])

/-- The per-event dispatch inside the `for event in events.data` loop of
`poll_stripe_events` (lines 256-274): route on `event.type_`, absorbing the
handler's error (`.log_err()`), with `_ => {}` for all other types. The
absorbed error is returned for observation. -/
def dispatchEvent (st : StripeState) (db : Db) (event : StripeEvent) :
    Db × List Effect × Option Err :=
  match event.type_ with
  | EventType.customerCreated =>
    match handle_customer_event st db event with
    | (Except.ok _, db1, effs) => (db1, effs, none)
    | (Except.error e, db1, effs) => (db1, effs, some e)
  | EventType.customerSubscriptionCreated
  | EventType.customerSubscriptionUpdated
  | EventType.customerSubscriptionPaused
  | EventType.customerSubscriptionResumed
  | EventType.customerSubscriptionDeleted =>
    match handle_customer_subscription_event st db event with
    | (Except.ok _, db1, effs) => (db1, effs, none)
    | (Except.error e, db1, effs) => (db1, effs, some e)
  | EventType.other => (db, [], none)

/-- Sequential processing of one page's events (the body of the `for` loop):
returns the resulting store state, the list of events dispatched (in order),
and the concatenated effect trace. -/
def processPage (st : StripeState) : Db → List StripeEvent →
    Db × List StripeEvent × List Effect
  | db, [] => (db, [], [])
  | db, event :: rest =>
    let step := dispatchEvent st db event
    let tail := processPage st step.1 rest
    (tail.1, event :: tail.2.1, step.2.1 ++ tail.2.2)

deriving instance DecidableEq for Except

/-- The outcome of one invocation of `poll_stripe_events`. -/
structure PollResult where
  outcome : Except Err Unit
  db : Db
  pagesRequested : Nat
  dispatched : List StripeEvent
  effects : List Effect
deriving DecidableEq, Repr

/-- The function `poll_stripe_events` from `billing.rs` (lines 228-282). The successive
responses of `stripe::Event::list` are supplied as a list of page-fetch
outcomes, consumed in order; a `?`-propagated fetch failure ends the
invocation with an error. The loop dispatches every event of a fetched page
and continues while `has_more` holds. An exhausted outcome list models an
unanswered fetch and is reported as a fetch failure. -/
def poll_stripe_events (st : StripeState) : Db → List (Except Unit EventsPage) →
    PollResult
  | db, [] => ⟨Except.error Err.stripeApiError, db, 0, [], []⟩
  | db, Except.error _ :: _ => ⟨Except.error Err.stripeApiError, db, 1, [], []⟩
  | db, Except.ok page :: rest =>
    let step := processPage st db page.data
    if page.hasMore then
      let r := poll_stripe_events st step.1 rest
      ⟨r.outcome, r.db, r.pagesRequested + 1, step.2.1 ++ r.dispatched,
        step.2.2 ++ r.effects⟩
    else
      ⟨Except.ok (), step.1, 1, step.2.1, step.2.2⟩

/-- The accumulated outcome of a finite run of the scheduler loop. -/
structure CyclesResult where
  db : Db
  outcomes : List (Except Err Unit)
  pagesRequested : Nat
  effects : List Effect
deriving DecidableEq, Repr

/-- The body of the detached loop in `poll_stripe_events_periodically`
(lines 218-224), finitized to a given list of poll cycles (each cycle being
the list of page-fetch outcomes the provider serves during it): run
`poll_stripe_events`, absorb its error (`.log_err()`), sleep, repeat. -/
def runPollCycles (st : StripeState) : Db → List (List (Except Unit EventsPage)) →
    CyclesResult
  | db, [] => ⟨db, [], 0, []⟩
  | db, cycle :: rest =>
    let r := poll_stripe_events st db cycle
    let tail := runPollCycles st r.db rest
    ⟨tail.db, r.outcome :: tail.outcomes, r.pagesRequested + tail.pagesRequested,
      r.effects ++ tail.effects⟩

/-- The application state read by `poll_stripe_events_periodically`:
an optional Stripe client and the store. -/
structure AppState where
  stripeClient : Option StripeState
  db : Db

/-- The observable outcome of `poll_stripe_events_periodically`. -/
structure PeriodicResult where
  loopStarted : Bool
  warnings : Nat
  db : Db
  pagesRequested : Nat
  effects : List Effect
  outcomes : List (Except Err Unit)

/-- The function `poll_stripe_events_periodically` from `billing.rs` (lines 209-226):
if no Stripe client is configured, log one warning and return without
starting the loop; otherwise run the detached polling loop (finitized to
the supplied cycles). The function itself never returns an error. -/
def poll_stripe_events_periodically (app : AppState)
    (cycles : List (List (Except Unit EventsPage))) : PeriodicResult :=
  match app.stripeClient with
  | none => ⟨false, 1, app.db, 0, [], []⟩
  | some st =>
    let r := runPollCycles st app.db cycles
    ⟨true, 0, r.db, r.pagesRequested, r.effects, r.outcomes⟩

/-! ## Shared concrete values used by witnesses and counterexamples -/

/-- A Stripe client oracle whose customer-retrieval endpoint always fails. -/
def stubStripe : StripeState := ⟨fun _ => Except.error ()⟩

/-- A Stripe client oracle serving a fixed customer record for every ID. -/
def echoStripe : StripeState :=
  ⟨fun ident => Except.ok { id := ident, email := some "a@example.com" }⟩

/-- An empty store. -/
def emptyDb : Db :=
  { users := [], billingCustomers := [], billingSubscriptions := []
    nextBillingCustomerId := 1, nextBillingSubscriptionId := 1, now := 0 }

/-- A store holding one user and one billing customer row for `cus_1`. -/
def dbWithCustomer : Db :=
  { users := [{ id := 7, email := "a@example.com" }]
    billingCustomers := [{ id := 1, user_id := 7, stripe_customer_id := "cus_1" }]
    billingSubscriptions := []
    nextBillingCustomerId := 2, nextBillingSubscriptionId := 1, now := 0 }

/-! ## Helper lemmas -/

/-- The number of billing customer rows recorded for a provider customer ID. -/
def countCustomerRows (db : Db) (cid : String) : Nat :=
  db.billingCustomers.countP (fun r => r.stripe_customer_id == cid)

/-- The number of billing subscription rows recorded for a provider
subscription ID. -/
def countSubscriptionRows (db : Db) (sid : String) : Nat :=
  db.billingSubscriptions.countP (fun r => r.stripe_subscription_id == sid)

theorem find_or_create_fast_path (st : StripeState) (db : Db)
    (x : Expandable Customer) (bc : BillingCustomer)
    (h : get_billing_customer_by_stripe_customer_id db (customerIdOf x) = some bc) :
    find_or_create_billing_customer st db x = (Except.ok (some bc), db, []) := by
  simp only [find_or_create_billing_customer, h]

/-! ## C2: the status mapper is a total bijection preserving names -/

/-- C2: `impl From<SubscriptionStatus> for StripeSubscriptionStatus` is a
total bijection over the closed set of 8 statuses: every external status has
exactly one image, distinct statuses have distinct images (injectivity
stated as an equivalence), every internal status is reached, and each
external value maps to the internal value of the same name. -/
theorem status_mapper_total_bijection_same_names :
    (∀ y : StripeSubscriptionStatus, ∃ x : SubscriptionStatus,
        StripeSubscriptionStatus.ofSubscriptionStatus x = y) ∧
    (∀ x y : SubscriptionStatus,
        StripeSubscriptionStatus.ofSubscriptionStatus x =
            StripeSubscriptionStatus.ofSubscriptionStatus y ↔ x = y) ∧
    StripeSubscriptionStatus.ofSubscriptionStatus SubscriptionStatus.incomplete =
        StripeSubscriptionStatus.incomplete ∧
    StripeSubscriptionStatus.ofSubscriptionStatus SubscriptionStatus.incompleteExpired =
        StripeSubscriptionStatus.incompleteExpired ∧
    StripeSubscriptionStatus.ofSubscriptionStatus SubscriptionStatus.trialing =
        StripeSubscriptionStatus.trialing ∧
    StripeSubscriptionStatus.ofSubscriptionStatus SubscriptionStatus.active =
        StripeSubscriptionStatus.active ∧
    StripeSubscriptionStatus.ofSubscriptionStatus SubscriptionStatus.pastDue =
        StripeSubscriptionStatus.pastDue ∧
    StripeSubscriptionStatus.ofSubscriptionStatus SubscriptionStatus.canceled =
        StripeSubscriptionStatus.canceled ∧
    StripeSubscriptionStatus.ofSubscriptionStatus SubscriptionStatus.unpaid =
        StripeSubscriptionStatus.unpaid ∧
    StripeSubscriptionStatus.ofSubscriptionStatus SubscriptionStatus.paused =
        StripeSubscriptionStatus.paused := by
  decide

/-! ## C8: absent Stripe client makes the periodic poller a logged no-op -/

/-- C8: when the provider client configuration is absent,
`poll_stripe_events_periodically` never starts the polling loop: it logs a
single warning, returns without error, leaves the store untouched, requests
no page, performs no fetch or store write, and runs no poll cycle. -/
theorem poll_periodically_noop_without_client (app : AppState)
    (cycles : List (List (Except Unit EventsPage)))
    (h : app.stripeClient = none) :
    (poll_stripe_events_periodically app cycles).loopStarted = false ∧
    (poll_stripe_events_periodically app cycles).warnings = 1 ∧
    (poll_stripe_events_periodically app cycles).db = app.db ∧
    (poll_stripe_events_periodically app cycles).pagesRequested = 0 ∧
    (poll_stripe_events_periodically app cycles).effects = [] ∧
    (poll_stripe_events_periodically app cycles).outcomes = [] := by
  unfold poll_stripe_events_periodically
  rw [h]
  exact ⟨rfl, rfl, rfl, rfl, rfl, rfl⟩

/-- Witness for C8 at a concrete unconfigured application state. -/
theorem poll_periodically_noop_without_client_witness :
    ({ stripeClient := none, db := emptyDb } : AppState).stripeClient = none ∧
    ((poll_stripe_events_periodically { stripeClient := none, db := emptyDb }
        [[Except.error ()]]).loopStarted = false ∧
      (poll_stripe_events_periodically { stripeClient := none, db := emptyDb }
        [[Except.error ()]]).warnings = 1 ∧
      (poll_stripe_events_periodically { stripeClient := none, db := emptyDb }
        [[Except.error ()]]).db =
          ({ stripeClient := none, db := emptyDb } : AppState).db ∧
      (poll_stripe_events_periodically { stripeClient := none, db := emptyDb }
        [[Except.error ()]]).pagesRequested = 0 ∧
      (poll_stripe_events_periodically { stripeClient := none, db := emptyDb }
        [[Except.error ()]]).effects = [] ∧
      (poll_stripe_events_periodically { stripeClient := none, db := emptyDb }
        [[Except.error ()]]).outcomes = []) :=
  ⟨rfl, poll_periodically_noop_without_client
      { stripeClient := none, db := emptyDb } [[Except.error ()]] rfl⟩

/-! ## C4: an unlinkable provider customer resolves to `None` as a success -/

/-- C4 counterexample: a provider customer record with an absent email does
not always resolve to "not found" — when a `BillingCustomer` row already
exists for that provider customer ID, the fast path returns it. -/
theorem find_or_create_absent_email_counterexample :
    ({ id := "cus_1", email := none } : Customer).email = none ∧
    (find_or_create_billing_customer stubStripe dbWithCustomer
        (Expandable.object { id := "cus_1", email := none })).1 ≠
      Except.ok none := by
  decide

/-- C4 (amended): for a provider customer record for whose ID no
`BillingCustomer` row exists yet, if the record's email is absent or
matches no local user, `find_or_create_billing_customer` returns `none` as
a success (not an error), leaves the store unchanged (creates no row), and
performs no fetch or write. -/
theorem find_or_create_unlinkable_ok_none (st : StripeState) (db : Db)
    (c : Customer)
    (hno : get_billing_customer_by_stripe_customer_id db c.id = none)
    (h : c.email = none ∨
      ∀ email, c.email = some email → get_user_by_email db email = none) :
    find_or_create_billing_customer st db (Expandable.object c) =
      (Except.ok none, db, []) := by
  rcases h with h | h
  · simp only [find_or_create_billing_customer, customerIdOf, hno, h]
  · cases he : c.email with
    | none => simp only [find_or_create_billing_customer, customerIdOf, hno, he]
    | some email =>
      have hu := h email he
      simp only [find_or_create_billing_customer, customerIdOf, hno, he, hu]

/-- Witness for the amended C4 at a concrete customer with no email. -/
theorem find_or_create_unlinkable_ok_none_witness :
    get_billing_customer_by_stripe_customer_id emptyDb
        ({ id := "cus_9", email := none } : Customer).id = none ∧
    (({ id := "cus_9", email := none } : Customer).email = none ∨
      ∀ email, ({ id := "cus_9", email := none } : Customer).email = some email →
        get_user_by_email emptyDb email = none) ∧
    find_or_create_billing_customer stubStripe emptyDb
        (Expandable.object { id := "cus_9", email := none }) =
      (Except.ok none, emptyDb, []) :=
  ⟨rfl, Or.inl rfl,
    find_or_create_unlinkable_ok_none stubStripe emptyDb
      { id := "cus_9", email := none } rfl (Or.inl rfl)⟩

theorem find_or_create_subscriptions_unchanged (st : StripeState) (db : Db)
    (x : Expandable Customer) :
    (find_or_create_billing_customer st db x).2.1.billingSubscriptions =
      db.billingSubscriptions := by
  cases hlk : get_billing_customer_by_stripe_customer_id db (customerIdOf x) with
  | some bc => simp [find_or_create_billing_customer, hlk]
  | none =>
    cases x with
    | id i =>
      simp only [customerIdOf] at hlk
      cases hr : st.retrieveCustomer i with
      | error e =>
        simp [find_or_create_billing_customer, customerIdOf, hlk, hr]
      | ok c =>
        cases he : c.email with
        | none =>
          simp [find_or_create_billing_customer, customerIdOf, hlk, hr, he]
        | some email =>
          cases hu : get_user_by_email db email with
          | none =>
            simp [find_or_create_billing_customer, customerIdOf, hlk, hr, he, hu]
          | some u =>
            simp [find_or_create_billing_customer, customerIdOf, hlk, hr, he, hu,
              create_billing_customer]
    | object c =>
      simp only [customerIdOf] at hlk
      cases he : c.email with
      | none =>
        simp [find_or_create_billing_customer, customerIdOf, hlk, he]
      | some email =>
        cases hu : get_user_by_email db email with
        | none =>
          simp [find_or_create_billing_customer, customerIdOf, hlk, he, hu]
        | some u =>
          simp [find_or_create_billing_customer, customerIdOf, hlk, he, hu,
            create_billing_customer]

/-! ## C6: the event dispatcher routes by declared type -/

/-- C6: for a subscription lifecycle event, if customer resolution yields
"not found" the handler fails and no subscription row is written; if the
customer resolves, the subscription upserter is called on the resolver's
resulting store with the mapped status; and any event of a type outside
the allow-list is ignored silently with no effect. -/
theorem dispatcher_routes_by_declared_type (st : StripeState) (db : Db)
    (event : StripeEvent) (sub : StripeSubscription)
    (h1 : event.data.object = EventObject.subscription sub) :
    ((find_or_create_billing_customer st db sub.customer).1 = Except.ok none →
      (handle_customer_subscription_event st db event).1 =
          Except.error Err.billingCustomerNotFound ∧
        (handle_customer_subscription_event st db event).2.1.billingSubscriptions =
          db.billingSubscriptions) ∧
    (∀ bc : BillingCustomer,
      (find_or_create_billing_customer st db sub.customer).1 =
          Except.ok (some bc) →
      handle_customer_subscription_event st db event =
        (Except.ok (),
         upsert_billing_subscription_by_stripe_subscription_id
           (find_or_create_billing_customer st db sub.customer).2.1 bc.id sub.id
           (StripeSubscriptionStatus.ofSubscriptionStatus sub.status),
         (find_or_create_billing_customer st db sub.customer).2.2 ++
           [Effect.upsertBillingSubscription sub.id])) ∧
    (∀ e2 : StripeEvent, e2.type_ = EventType.other →
      dispatchEvent st db e2 = (db, [], none)) := by
  refine ⟨?_, ?_, ?_⟩
  · intro hres
    have hsubs := find_or_create_subscriptions_unchanged st db sub.customer
    rcases hF : find_or_create_billing_customer st db sub.customer with ⟨r, db1, effs⟩
    rw [hF] at hres hsubs
    simp only at hres hsubs
    subst hres
    simp [handle_customer_subscription_event, h1, hF, hsubs]
  · intro bc hres
    rcases hF : find_or_create_billing_customer st db sub.customer with ⟨r, db1, effs⟩
    rw [hF] at hres
    simp only at hres
    subst hres
    simp [handle_customer_subscription_event, h1, hF]
  · intro e2 hty
    simp [dispatchEvent, hty]

/-- A concrete subscription object used by witnesses. -/
def subW : StripeSubscription :=
  { id := "sub_1"
    customer := Expandable.object { id := "cus_1", email := some "a@example.com" }
    status := SubscriptionStatus.active }

/-- A concrete subscription-updated event used by witnesses. -/
def eventW : StripeEvent :=
  { id := "evt_1"
    type_ := EventType.customerSubscriptionUpdated
    data := { object := EventObject.subscription subW } }

/-- Witness for C6 at a concrete subscription event against a store whose
customer is already resolvable. -/
theorem dispatcher_routes_by_declared_type_witness :
    eventW.data.object = EventObject.subscription subW ∧
    (((find_or_create_billing_customer stubStripe dbWithCustomer subW.customer).1 =
          Except.ok none →
       (handle_customer_subscription_event stubStripe dbWithCustomer eventW).1 =
           Except.error Err.billingCustomerNotFound ∧
         (handle_customer_subscription_event stubStripe dbWithCustomer
             eventW).2.1.billingSubscriptions =
           dbWithCustomer.billingSubscriptions) ∧
     (∀ bc : BillingCustomer,
       (find_or_create_billing_customer stubStripe dbWithCustomer subW.customer).1 =
           Except.ok (some bc) →
       handle_customer_subscription_event stubStripe dbWithCustomer eventW =
         (Except.ok (),
          upsert_billing_subscription_by_stripe_subscription_id
            (find_or_create_billing_customer stubStripe dbWithCustomer
              subW.customer).2.1 bc.id subW.id
            (StripeSubscriptionStatus.ofSubscriptionStatus subW.status),
          (find_or_create_billing_customer stubStripe dbWithCustomer
              subW.customer).2.2 ++
            [Effect.upsertBillingSubscription subW.id])) ∧
     (∀ e2 : StripeEvent, e2.type_ = EventType.other →
       dispatchEvent stubStripe dbWithCustomer e2 = (dbWithCustomer, [], none))) :=
  ⟨rfl, dispatcher_routes_by_declared_type stubStripe dbWithCustomer eventW subW rfl⟩

/-! ## C10: the subsystem never deletes a subscription row -/

/-- Every row of `l1` survives into `l2` with its identity fields
(`id`, `stripe_subscription_id`, `created_at`) intact. -/
def rowsPreserved (l1 l2 : List BillingSubscription) : Prop :=
  ∀ row ∈ l1, ∃ rowP ∈ l2,
    rowP.id = row.id ∧
    rowP.stripe_subscription_id = row.stripe_subscription_id ∧
    rowP.created_at = row.created_at

theorem rowsPreserved_refl (l : List BillingSubscription) : rowsPreserved l l :=
  fun row hmem => ⟨row, hmem, rfl, rfl, rfl⟩

theorem upsert_rowsPreserved (db : Db) (cid : Nat) (sid : String)
    (s : StripeSubscriptionStatus) :
    rowsPreserved db.billingSubscriptions
      (upsert_billing_subscription_by_stripe_subscription_id db cid
        sid s).billingSubscriptions := by
  intro row hmem
  unfold upsert_billing_subscription_by_stripe_subscription_id
  split
  · refine ⟨_, List.mem_map_of_mem _ hmem, ?_⟩
    cases hc : row.stripe_subscription_id == sid <;> simp [hc]
  · exact ⟨row, List.mem_append_left _ hmem, rfl, rfl, rfl⟩

theorem upsert_length_ge (db : Db) (cid : Nat) (sid : String)
    (s : StripeSubscriptionStatus) :
    db.billingSubscriptions.length ≤
      (upsert_billing_subscription_by_stripe_subscription_id db cid
        sid s).billingSubscriptions.length := by
  unfold upsert_billing_subscription_by_stripe_subscription_id
  split <;> simp

theorem handle_customer_event_subscriptions_unchanged (st : StripeState)
    (db : Db) (e : StripeEvent) :
    (handle_customer_event st db e).2.1.billingSubscriptions =
      db.billingSubscriptions := by
  cases ho : e.data.object with
  | customer c =>
    have hsubs := find_or_create_subscriptions_unchanged st db (Expandable.object c)
    rcases hF : find_or_create_billing_customer st db (Expandable.object c)
      with ⟨r, db1, effs⟩
    rw [hF] at hsubs
    simp only at hsubs
    cases r with
    | ok v => simpa [handle_customer_event, ho, hF] using hsubs
    | error e2 => simpa [handle_customer_event, ho, hF] using hsubs
  | subscription s => simp [handle_customer_event, ho]
  | other => simp [handle_customer_event, ho]

theorem handle_subscription_event_preserves (st : StripeState) (db : Db)
    (e : StripeEvent) :
    rowsPreserved db.billingSubscriptions
      (handle_customer_subscription_event st db e).2.1.billingSubscriptions ∧
    db.billingSubscriptions.length ≤
      (handle_customer_subscription_event st db e).2.1.billingSubscriptions.length := by
  cases ho : e.data.object with
  | customer c =>
    constructor
    · simpa [handle_customer_subscription_event, ho] using
        rowsPreserved_refl db.billingSubscriptions
    · simp [handle_customer_subscription_event, ho]
  | other =>
    constructor
    · simpa [handle_customer_subscription_event, ho] using
        rowsPreserved_refl db.billingSubscriptions
    · simp [handle_customer_subscription_event, ho]
  | subscription sub =>
    have hsubs := find_or_create_subscriptions_unchanged st db sub.customer
    rcases hF : find_or_create_billing_customer st db sub.customer
      with ⟨r, db1, effs⟩
    rw [hF] at hsubs
    simp only at hsubs
    cases r with
    | ok v =>
      cases v with
      | some bc =>
        constructor
        · have h1 := upsert_rowsPreserved db1 bc.id sub.id
            (StripeSubscriptionStatus.ofSubscriptionStatus sub.status)
          rw [hsubs] at h1
          simpa [handle_customer_subscription_event, ho, hF] using h1
        · have h2 := upsert_length_ge db1 bc.id sub.id
            (StripeSubscriptionStatus.ofSubscriptionStatus sub.status)
          rw [hsubs] at h2
          simpa [handle_customer_subscription_event, ho, hF] using h2
      | none =>
        constructor
        · have := rowsPreserved_refl db.billingSubscriptions
          simpa [handle_customer_subscription_event, ho, hF, hsubs] using this
        · simp [handle_customer_subscription_event, ho, hF, hsubs]
    | error e2 =>
      constructor
      · have := rowsPreserved_refl db.billingSubscriptions
        simpa [handle_customer_subscription_event, ho, hF, hsubs] using this
      · simp [handle_customer_subscription_event, ho, hF, hsubs]

/-- C10: dispatching any event never removes a `BillingSubscription` row:
every row survives with its `id`, `stripe_subscription_id` and `created_at`
intact and the table never shrinks; and a subscription-deleted event takes
exactly the same path as a subscription-updated event with the same
payload. -/
theorem dispatch_never_deletes_subscription_rows (st : StripeState) (db : Db)
    (event : StripeEvent) :
    rowsPreserved db.billingSubscriptions
      (dispatchEvent st db event).1.billingSubscriptions ∧
    db.billingSubscriptions.length ≤
      (dispatchEvent st db event).1.billingSubscriptions.length ∧
    (event.type_ = EventType.customerSubscriptionDeleted →
      dispatchEvent st db event =
        dispatchEvent st db
          { event with type_ := EventType.customerSubscriptionUpdated }) := by
  refine ⟨?_, ?_, ?_⟩
  · cases hty : event.type_
    case customerCreated =>
      have h := handle_customer_event_subscriptions_unchanged st db event
      rcases hH : handle_customer_event st db event with ⟨r, db1, effs⟩
      rw [hH] at h
      simp only at h
      cases r <;> simp [dispatchEvent, hty, hH, h] <;>
        exact h ▸ rowsPreserved_refl db.billingSubscriptions
    case other => simpa [dispatchEvent, hty] using rowsPreserved_refl db.billingSubscriptions
    all_goals
      have h := (handle_subscription_event_preserves st db event).1
      rcases hH : handle_customer_subscription_event st db event with ⟨r, db1, effs⟩
      rw [hH] at h
      simp only at h
      cases r <;> simpa [dispatchEvent, hty, hH] using h
  · cases hty : event.type_
    case customerCreated =>
      have h := handle_customer_event_subscriptions_unchanged st db event
      rcases hH : handle_customer_event st db event with ⟨r, db1, effs⟩
      rw [hH] at h
      simp only at h
      cases r <;> simp [dispatchEvent, hty, hH, h]
    case other => simp [dispatchEvent, hty]
    all_goals
      have h := (handle_subscription_event_preserves st db event).2
      rcases hH : handle_customer_subscription_event st db event with ⟨r, db1, effs⟩
      rw [hH] at h
      simp only at h
      cases r <;> simpa [dispatchEvent, hty, hH] using h
  · intro hty
    cases event with
    | mk ident ty dt =>
      simp only at hty
      subst hty
      rfl

/-- A store with one user, one billing customer and one subscription row. -/
def dbWithSub : Db :=
  { dbWithCustomer with
      billingSubscriptions :=
        [{ id := 1, billing_customer_id := 1, stripe_subscription_id := "sub_1",
           stripe_subscription_status := StripeSubscriptionStatus.active,
           created_at := 5 }]
      nextBillingSubscriptionId := 2 }

/-- A concrete subscription-deleted event used by witnesses. -/
def eventDelW : StripeEvent :=
  { id := "evt_2"
    type_ := EventType.customerSubscriptionDeleted
    data := { object := EventObject.subscription subW } }

/-- Witness for C10 at a concrete deleted event over a store holding one
subscription row. -/
theorem dispatch_never_deletes_subscription_rows_witness :
    rowsPreserved dbWithSub.billingSubscriptions
      (dispatchEvent stubStripe dbWithSub eventDelW).1.billingSubscriptions ∧
    dbWithSub.billingSubscriptions.length ≤
      (dispatchEvent stubStripe dbWithSub eventDelW).1.billingSubscriptions.length ∧
    (eventDelW.type_ = EventType.customerSubscriptionDeleted →
      dispatchEvent stubStripe dbWithSub eventDelW =
        dispatchEvent stubStripe dbWithSub
          { eventDelW with type_ := EventType.customerSubscriptionUpdated }) :=
  dispatch_never_deletes_subscription_rows stubStripe dbWithSub eventDelW

/-! ## C7: the subscription upsert is idempotent, keyed on the provider
subscription ID -/

theorem countP_le_one_mem_unique {α : Type} {p : α → Bool} {l : List α}
    (h : l.countP p ≤ 1) {a b : α} (ha : a ∈ l) (hb : b ∈ l)
    (hpa : p a = true) (hpb : p b = true) : a = b := by
  have ha2 : a ∈ l.filter p := List.mem_filter.mpr ⟨ha, hpa⟩
  have hb2 : b ∈ l.filter p := List.mem_filter.mpr ⟨hb, hpb⟩
  rw [List.countP_eq_length_filter] at h
  cases hf : l.filter p with
  | nil =>
    rw [hf] at ha2
    exact absurd ha2 (List.not_mem_nil a)
  | cons x xs =>
    cases xs with
    | nil =>
      rw [hf] at ha2 hb2
      have hax : a = x := by simpa using ha2
      have hbx : b = x := by simpa using hb2
      rw [hax, hbx]
    | cons y ys =>
      rw [hf] at h
      simp [List.length_cons] at h

theorem upsert_rows_of_any_true (db : Db) (cid : Nat) (sid : String)
    (s : StripeSubscriptionStatus)
    (hany : db.billingSubscriptions.any
      (fun r => r.stripe_subscription_id == sid) = true) :
    (upsert_billing_subscription_by_stripe_subscription_id db cid
      sid s).billingSubscriptions =
      db.billingSubscriptions.map (fun r =>
        if r.stripe_subscription_id == sid then
          { r with billing_customer_id := cid, stripe_subscription_status := s }
        else r) := by
  simp [upsert_billing_subscription_by_stripe_subscription_id, hany]

theorem upsert_rows_of_any_false (db : Db) (cid : Nat) (sid : String)
    (s : StripeSubscriptionStatus)
    (hany : db.billingSubscriptions.any
      (fun r => r.stripe_subscription_id == sid) = false) :
    (upsert_billing_subscription_by_stripe_subscription_id db cid
      sid s).billingSubscriptions =
      db.billingSubscriptions ++
        [{ id := db.nextBillingSubscriptionId, billing_customer_id := cid,
           stripe_subscription_id := sid, stripe_subscription_status := s,
           created_at := db.now }] := by
  simp [upsert_billing_subscription_by_stripe_subscription_id, hany]

theorem upsert_count_eq_one (db : Db) (cid : Nat) (sid : String)
    (s : StripeSubscriptionStatus) (h : countSubscriptionRows db sid ≤ 1) :
    countSubscriptionRows
      (upsert_billing_subscription_by_stripe_subscription_id db cid sid s)
      sid = 1 := by
  unfold countSubscriptionRows at *
  cases hany : db.billingSubscriptions.any
      (fun r => r.stripe_subscription_id == sid) with
  | true =>
    have hge : 0 < db.billingSubscriptions.countP
        (fun r => r.stripe_subscription_id == sid) := by
      rcases List.any_eq_true.mp hany with ⟨a, ha, hpa⟩
      exact List.countP_pos_iff.mpr ⟨a, ha, hpa⟩
    have heq : db.billingSubscriptions.countP
        (fun r => r.stripe_subscription_id == sid) = 1 :=
      le_antisymm h hge
    rw [upsert_rows_of_any_true db cid sid s hany, List.countP_map]
    have hcongr : ((fun r : BillingSubscription =>
        r.stripe_subscription_id == sid) ∘ (fun r =>
          if r.stripe_subscription_id == sid then
            { r with billing_customer_id := cid, stripe_subscription_status := s }
          else r)) =
        (fun r : BillingSubscription => r.stripe_subscription_id == sid) := by
      funext r
      cases hc : r.stripe_subscription_id == sid <;> simp [Function.comp, hc]
    rw [hcongr, heq]
  | false =>
    rw [upsert_rows_of_any_false db cid sid s hany, List.countP_append]
    have h0 : db.billingSubscriptions.countP
        (fun r => r.stripe_subscription_id == sid) = 0 := by
      rw [List.countP_eq_zero]
      intro a ha hpa
      have htrue : db.billingSubscriptions.any
          (fun r => r.stripe_subscription_id == sid) = true :=
        List.any_eq_true.mpr ⟨a, ha, hpa⟩
      rw [hany] at htrue
      exact Bool.false_ne_true htrue
    rw [h0]
    simp

/-- C7: the subscription upsert is idempotent and keyed on the provider
subscription ID: applying it twice for the same `stripe_subscription_id`
with differing customers/statuses leaves exactly one row for that ID (the
row count never exceeds one after either application), the surviving row
carries the latest status and customer, and `created_at` is set only at the
first insertion (it equals the store clock of the first call when the row
is fresh, and is never changed for a pre-existing row). -/
theorem upsert_idempotent_keyed (db : Db) (cid1 cid2 : Nat) (sid : String)
    (s1 s2 : StripeSubscriptionStatus) (t2 : Nat)
    (h : countSubscriptionRows db sid ≤ 1) :
    countSubscriptionRows
      (upsert_billing_subscription_by_stripe_subscription_id db cid1 sid s1)
      sid = 1 ∧
    countSubscriptionRows
      (upsert_billing_subscription_by_stripe_subscription_id
        { upsert_billing_subscription_by_stripe_subscription_id db cid1 sid s1
            with now := t2 } cid2 sid s2) sid = 1 ∧
    ∀ r ∈ (upsert_billing_subscription_by_stripe_subscription_id
        { upsert_billing_subscription_by_stripe_subscription_id db cid1 sid s1
            with now := t2 } cid2 sid s2).billingSubscriptions,
      r.stripe_subscription_id = sid →
      r.stripe_subscription_status = s2 ∧
      r.billing_customer_id = cid2 ∧
      (countSubscriptionRows db sid = 0 → r.created_at = db.now) ∧
      (∀ r0 ∈ db.billingSubscriptions, r0.stripe_subscription_id = sid →
        r.created_at = r0.created_at) := by
  set U1 := upsert_billing_subscription_by_stripe_subscription_id db cid1 sid s1
    with hU1
  set D1 : Db := { U1 with now := t2 } with hD1def
  have c1 : countSubscriptionRows U1 sid = 1 := upsert_count_eq_one db cid1 sid s1 h
  have cD1 : countSubscriptionRows D1 sid = 1 := c1
  have c2 : countSubscriptionRows
      (upsert_billing_subscription_by_stripe_subscription_id D1 cid2 sid s2)
      sid = 1 :=
    upsert_count_eq_one D1 cid2 sid s2 (le_of_eq cD1)
  refine ⟨c1, c2, ?_⟩
  have hposD1 : 0 < D1.billingSubscriptions.countP
      (fun r => r.stripe_subscription_id == sid) := by
    unfold countSubscriptionRows at cD1
    omega
  have hanyD1 : D1.billingSubscriptions.any
      (fun r => r.stripe_subscription_id == sid) = true := by
    rcases List.countP_pos_iff.mp hposD1 with ⟨a, ha, hpa⟩
    exact List.any_eq_true.mpr ⟨a, ha, hpa⟩
  have rows2 := upsert_rows_of_any_true D1 cid2 sid s2 hanyD1
  intro r hr hsid
  rw [rows2] at hr
  rcases List.mem_map.mp hr with ⟨r1, hr1, hgr⟩
  cases hc : r1.stripe_subscription_id == sid with
  | false =>
    exfalso
    have hr1r : r1 = r := by simpa [hc] using hgr
    rw [hr1r, hsid] at hc
    simp at hc
  | true =>
    have hrdef : r = { r1 with
        billing_customer_id := cid2
        stripe_subscription_status := s2 } := by
      simpa [hc] using hgr.symm
    have hcr : r.created_at = r1.created_at := by rw [hrdef]
    refine ⟨by rw [hrdef], by rw [hrdef], ?_⟩
    unfold countSubscriptionRows at h
    cases hany1 : db.billingSubscriptions.any
        (fun r => r.stripe_subscription_id == sid) with
    | false =>
      have rows1 := upsert_rows_of_any_false db cid1 sid s1 hany1
      have hD1rows : D1.billingSubscriptions = U1.billingSubscriptions := rfl
      rw [hD1rows, hU1, rows1] at hr1
      rcases List.mem_append.mp hr1 with hmem | hmem
      · exfalso
        have htrue : db.billingSubscriptions.any
            (fun r => r.stripe_subscription_id == sid) = true :=
          List.any_eq_true.mpr ⟨r1, hmem, hc⟩
        rw [hany1] at htrue
        exact Bool.false_ne_true htrue
      · have hr1new : r1 =
            { id := db.nextBillingSubscriptionId
              billing_customer_id := cid1
              stripe_subscription_id := sid
              stripe_subscription_status := s1
              created_at := db.now } := by
          simpa using hmem
        constructor
        · intro _
          rw [hcr, hr1new]
        · intro r0 hr0 hs0
          exfalso
          have htrue : db.billingSubscriptions.any
              (fun r => r.stripe_subscription_id == sid) = true :=
            List.any_eq_true.mpr ⟨r0, hr0, beq_iff_eq.mpr hs0⟩
          rw [hany1] at htrue
          exact Bool.false_ne_true htrue
    | true =>
      have rows1 := upsert_rows_of_any_true db cid1 sid s1 hany1
      have hD1rows : D1.billingSubscriptions = U1.billingSubscriptions := rfl
      rw [hD1rows, hU1, rows1] at hr1
      rcases List.mem_map.mp hr1 with ⟨r0p, hr0p, hg1⟩
      have hr1def := hg1.symm
      cases hc0 : r0p.stripe_subscription_id == sid with
      | false =>
        exfalso
        have hr1eq : r1 = r0p := by simpa [hc0] using hr1def
        rw [hr1eq] at hc
        rw [hc0] at hc
        exact Bool.false_ne_true hc
      | true =>
        have hr1eq : r1 = { r0p with
            billing_customer_id := cid1
            stripe_subscription_status := s1 } := by
          simpa [hc0] using hr1def
        have hcr1 : r1.created_at = r0p.created_at := by rw [hr1eq]
        have hposdb : 0 < db.billingSubscriptions.countP
            (fun r => r.stripe_subscription_id == sid) := by
          rcases List.any_eq_true.mp hany1 with ⟨a, ha, hpa⟩
          exact List.countP_pos_iff.mpr ⟨a, ha, hpa⟩
        constructor
        · intro h0
          unfold countSubscriptionRows at h0
          omega
        · intro r0 hr0 hs0
          have hr00 : r0 = r0p :=
            countP_le_one_mem_unique h hr0 hr0p (beq_iff_eq.mpr hs0) hc0
          rw [hcr, hcr1, ← hr00]

/-- Witness for C7: two upserts for a fresh subscription ID on an empty
store. -/
theorem upsert_idempotent_keyed_witness :
    countSubscriptionRows emptyDb "sub_9" ≤ 1 ∧
    (countSubscriptionRows
        (upsert_billing_subscription_by_stripe_subscription_id emptyDb 1 "sub_9"
          StripeSubscriptionStatus.active) "sub_9" = 1 ∧
      countSubscriptionRows
        (upsert_billing_subscription_by_stripe_subscription_id
          { upsert_billing_subscription_by_stripe_subscription_id emptyDb 1 "sub_9"
              StripeSubscriptionStatus.active with now := 9 } 2 "sub_9"
          StripeSubscriptionStatus.canceled) "sub_9" = 1 ∧
      ∀ r ∈ (upsert_billing_subscription_by_stripe_subscription_id
          { upsert_billing_subscription_by_stripe_subscription_id emptyDb 1 "sub_9"
              StripeSubscriptionStatus.active with now := 9 } 2 "sub_9"
          StripeSubscriptionStatus.canceled).billingSubscriptions,
        r.stripe_subscription_id = "sub_9" →
        r.stripe_subscription_status = StripeSubscriptionStatus.canceled ∧
        r.billing_customer_id = 2 ∧
        (countSubscriptionRows emptyDb "sub_9" = 0 → r.created_at = emptyDb.now) ∧
        (∀ r0 ∈ emptyDb.billingSubscriptions, r0.stripe_subscription_id = "sub_9" →
          r.created_at = r0.created_at)) :=
  ⟨by decide, upsert_idempotent_keyed emptyDb 1 2 "sub_9"
      StripeSubscriptionStatus.active StripeSubscriptionStatus.canceled 9 (by decide)⟩

/-! ## C5: within a page, events are handled independently -/

theorem processPage_events (st : StripeState) (l : List StripeEvent) (db : Db) :
    (processPage st db l).2.1 = l := by
  induction l generalizing db with
  | nil => simp [processPage]
  | cons a as ih => simp [processPage, ih]

theorem processPage_append (st : StripeState) (xs ys : List StripeEvent) (db : Db) :
    processPage st db (xs ++ ys) =
      ((processPage st (processPage st db xs).1 ys).1,
       (processPage st db xs).2.1 ++ (processPage st (processPage st db xs).1 ys).2.1,
       (processPage st db xs).2.2 ++ (processPage st (processPage st db xs).1 ys).2.2) := by
  induction xs generalizing db with
  | nil => simp [processPage]
  | cons a as ih =>
    simp [processPage, ih, List.append_assoc]

/-- C5: events of one page are handled independently: even when dispatching
the event `e` fails (its absorbed error is present), every event of `ys`
after it is still processed in order, starting from the state `e` left
behind; the page's dispatch trace is exactly `xs ++ e :: ys`. -/
theorem per_event_failure_isolated (st : StripeState) (db : Db)
    (xs ys : List StripeEvent) (e : StripeEvent)
    (h : (dispatchEvent st (processPage st db xs).1 e).2.2.isSome = true) :
    processPage st db (xs ++ e :: ys) =
      ((processPage st (dispatchEvent st (processPage st db xs).1 e).1 ys).1,
       (processPage st db xs).2.1 ++ e ::
         (processPage st (dispatchEvent st (processPage st db xs).1 e).1 ys).2.1,
       (processPage st db xs).2.2 ++
         ((dispatchEvent st (processPage st db xs).1 e).2.1 ++
           (processPage st (dispatchEvent st (processPage st db xs).1 e).1 ys).2.2)) := by
  rw [processPage_append st xs (e :: ys) db]
  simp [processPage]

/-- A concrete customer-created event used by witnesses. -/
def eventCustW : StripeEvent :=
  { id := "evt_c1"
    type_ := EventType.customerCreated
    data := { object := EventObject.customer { id := "cus_1", email := some "a@example.com" } } }

/-- A concrete malformed event: declares a subscription-updated type but
carries a customer payload. -/
def eventBadW : StripeEvent :=
  { id := "evt_bad"
    type_ := EventType.customerSubscriptionUpdated
    data := { object := EventObject.customer { id := "cus_1", email := some "a@example.com" } } }

/-- Witness for C5: a page of three events whose second is malformed;
the first and third are still fully processed. -/
theorem per_event_failure_isolated_witness :
    (dispatchEvent stubStripe
        (processPage stubStripe dbWithCustomer [eventCustW]).1
        eventBadW).2.2.isSome = true ∧
    processPage stubStripe dbWithCustomer ([eventCustW] ++ eventBadW :: [eventW]) =
      ((processPage stubStripe
          (dispatchEvent stubStripe
            (processPage stubStripe dbWithCustomer [eventCustW]).1 eventBadW).1
          [eventW]).1,
       (processPage stubStripe dbWithCustomer [eventCustW]).2.1 ++ eventBadW ::
         (processPage stubStripe
           (dispatchEvent stubStripe
             (processPage stubStripe dbWithCustomer [eventCustW]).1 eventBadW).1
           [eventW]).2.1,
       (processPage stubStripe dbWithCustomer [eventCustW]).2.2 ++
         ((dispatchEvent stubStripe
             (processPage stubStripe dbWithCustomer [eventCustW]).1 eventBadW).2.1 ++
           (processPage stubStripe
             (dispatchEvent stubStripe
               (processPage stubStripe dbWithCustomer [eventCustW]).1 eventBadW).1
             [eventW]).2.2)) :=
  ⟨by decide, per_event_failure_isolated stubStripe dbWithCustomer
      [eventCustW] [eventW] eventBadW (by decide)⟩

/-! ## C1: a single poll invocation consumes every page exactly once -/

/-- The `has_more` flags of a served page sequence are honest: each
non-final page reports that more pages remain and the final page reports
none (a nonempty sequence is required, since one invocation always
requests at least one page). -/
def wellPaged : List EventsPage → Bool
  | [] => false
  | [p] => p.hasMore == false
  | p :: rest => p.hasMore == true && wellPaged rest

theorem poll_stripe_events_cons_ok (st : StripeState) (db : Db)
    (page : EventsPage) (rest : List (Except Unit EventsPage)) :
    poll_stripe_events st db (Except.ok page :: rest) =
      if page.hasMore then
        ⟨(poll_stripe_events st (processPage st db page.data).1 rest).outcome,
         (poll_stripe_events st (processPage st db page.data).1 rest).db,
         (poll_stripe_events st (processPage st db page.data).1 rest).pagesRequested + 1,
         (processPage st db page.data).2.1 ++
           (poll_stripe_events st (processPage st db page.data).1 rest).dispatched,
         (processPage st db page.data).2.2 ++
           (poll_stripe_events st (processPage st db page.data).1 rest).effects⟩
      else
        ⟨Except.ok (), (processPage st db page.data).1, 1,
         (processPage st db page.data).2.1, (processPage st db page.data).2.2⟩ := rfl

/-- C1: over a finite sequence of successfully served pages whose final
page reports no further pages, one invocation of `poll_stripe_events`
returns success, requests exactly one fetch per page, and dispatches
exactly the concatenation of the pages' events (each occurrence once, in
order). -/
theorem poll_consumes_each_page_once (st : StripeState) (db : Db)
    (pages : List EventsPage) (h : wellPaged pages = true) :
    (poll_stripe_events st db (pages.map Except.ok)).outcome = Except.ok () ∧
    (poll_stripe_events st db (pages.map Except.ok)).pagesRequested =
      pages.length ∧
    (poll_stripe_events st db (pages.map Except.ok)).dispatched =
      (pages.map EventsPage.data).flatten := by
  revert h
  induction pages generalizing db with
  | nil =>
    intro h
    simp [wellPaged] at h
  | cons p rest ih =>
    intro h
    cases rest with
    | nil =>
      have hm : p.hasMore = false := by simpa [wellPaged] using h
      rw [List.map_cons, List.map_nil, poll_stripe_events_cons_ok, if_neg (by rw [hm]; exact Bool.false_ne_true)]
      simp [processPage_events]
    | cons q rest2 =>
      rw [show wellPaged (p :: q :: rest2) =
          (p.hasMore == true && wellPaged (q :: rest2)) from rfl] at h
      rw [Bool.and_eq_true] at h
      have hm : p.hasMore = true := by simpa using h.1
      obtain ⟨o1, o2, o3⟩ := ih (processPage st db p.data).1 h.2
      rw [List.map_cons, poll_stripe_events_cons_ok, if_pos hm]
      refine ⟨o1, ?_, ?_⟩
      · simp only [List.map_cons] at o2
        simp [o2]
      · simp only [List.map_cons] at o3
        simp [o3, processPage_events]

/-- A concrete two-page sequence: the first page reports more pages, the
second is final. -/
def pagesW : List EventsPage :=
  [{ data := [eventCustW], hasMore := true },
   { data := [eventW], hasMore := false }]

/-- Witness for C1 at the concrete two-page sequence. -/
theorem poll_consumes_each_page_once_witness :
    wellPaged pagesW = true ∧
    ((poll_stripe_events stubStripe dbWithCustomer (pagesW.map Except.ok)).outcome =
        Except.ok () ∧
      (poll_stripe_events stubStripe dbWithCustomer
          (pagesW.map Except.ok)).pagesRequested = pagesW.length ∧
      (poll_stripe_events stubStripe dbWithCustomer
          (pagesW.map Except.ok)).dispatched =
        (pagesW.map EventsPage.data).flatten) :=
  ⟨by decide, poll_consumes_each_page_once stubStripe dbWithCustomer pagesW
      (by decide)⟩

/-! ## C9: fetch failures end the cycle early but never kill the scheduler -/

/-- C9: the scheduler runs every cycle regardless of outcomes (one outcome
per cycle, always proceeding to the next); within a cycle, a page-fetch
failure propagates out of `poll_stripe_events` as an error after the
pages fetched so far (only their events were dispatched, the remaining
outcomes are left unconsumed); and the recursion on cycles continues from
whatever store state a failed or successful cycle left behind. -/
theorem scheduler_survives_poll_failures (st : StripeState) (db : Db)
    (cycles : List (List (Except Unit EventsPage)))
    (okPages : List EventsPage) (rest : List (Except Unit EventsPage))
    (hok : ∀ p ∈ okPages, p.hasMore = true) :
    (runPollCycles st db cycles).outcomes.length = cycles.length ∧
    ((poll_stripe_events st db
        (okPages.map Except.ok ++ Except.error () :: rest)).outcome =
      Except.error Err.stripeApiError ∧
     (poll_stripe_events st db
        (okPages.map Except.ok ++ Except.error () :: rest)).pagesRequested =
      okPages.length + 1 ∧
     (poll_stripe_events st db
        (okPages.map Except.ok ++ Except.error () :: rest)).dispatched =
      (okPages.map EventsPage.data).flatten) ∧
    (∀ cycle cs, (runPollCycles st db (cycle :: cs)).outcomes =
      (poll_stripe_events st db cycle).outcome ::
        (runPollCycles st (poll_stripe_events st db cycle).db cs).outcomes) := by
  refine ⟨?_, ?_, ?_⟩
  · induction cycles generalizing db with
    | nil => simp [runPollCycles]
    | cons c cs ih => simp [runPollCycles, ih]
  · revert hok
    induction okPages generalizing db with
    | nil =>
      intro hok
      simp [poll_stripe_events]
    | cons p ps ih =>
      intro hok
      have hm : p.hasMore = true := hok p (List.mem_cons_self p ps)
      have hok2 : ∀ x ∈ ps, x.hasMore = true := fun x hx =>
        hok x (List.mem_cons_of_mem p hx)
      obtain ⟨o1, o2, o3⟩ := ih (processPage st db p.data).1 hok2
      rw [List.map_cons, List.cons_append, poll_stripe_events_cons_ok, if_pos hm]
      refine ⟨o1, ?_, ?_⟩
      · simp [o2]
      · simp [o3, processPage_events]
  · intro cycle cs
    rfl

/-- Witness for C9: two cycles, the first failing at its second fetch, the
second succeeding. -/
theorem scheduler_survives_poll_failures_witness :
    (∀ p ∈ [({ data := [eventCustW], hasMore := true } : EventsPage)],
        p.hasMore = true) ∧
    ((runPollCycles stubStripe dbWithCustomer
        [[Except.error ()],
         [Except.ok { data := [], hasMore := false }]]).outcomes.length =
      [[Except.error ()],
       [Except.ok ({ data := [], hasMore := false } : EventsPage)]].length ∧
     ((poll_stripe_events stubStripe dbWithCustomer
         ([({ data := [eventCustW], hasMore := true } : EventsPage)].map Except.ok ++
           Except.error () :: [])).outcome = Except.error Err.stripeApiError ∧
      (poll_stripe_events stubStripe dbWithCustomer
         ([({ data := [eventCustW], hasMore := true } : EventsPage)].map Except.ok ++
           Except.error () :: [])).pagesRequested =
        [({ data := [eventCustW], hasMore := true } : EventsPage)].length + 1 ∧
      (poll_stripe_events stubStripe dbWithCustomer
         ([({ data := [eventCustW], hasMore := true } : EventsPage)].map Except.ok ++
           Except.error () :: [])).dispatched =
        ([({ data := [eventCustW], hasMore := true } : EventsPage)].map
          EventsPage.data).flatten) ∧
     (∀ cycle cs,
       (runPollCycles stubStripe dbWithCustomer (cycle :: cs)).outcomes =
         (poll_stripe_events stubStripe dbWithCustomer cycle).outcome ::
           (runPollCycles stubStripe
             (poll_stripe_events stubStripe dbWithCustomer cycle).db cs).outcomes)) :=
  ⟨by decide, scheduler_survives_poll_failures stubStripe dbWithCustomer
      [[Except.error ()], [Except.ok { data := [], hasMore := false }]]
      [{ data := [eventCustW], hasMore := true }] [] (by decide)⟩

/-! ## C3: customer resolution is idempotent with a write-free fast path -/

theorem countP_append_singleton_le_one {l : List BillingCustomer}
    {row : BillingCustomer} {cid : String}
    (hc : l.countP (fun r => r.stripe_customer_id == cid) ≤ 1)
    (hnone : l.find?
      (fun r => r.stripe_customer_id == row.stripe_customer_id) = none) :
    (l ++ [row]).countP (fun r => r.stripe_customer_id == cid) ≤ 1 := by
  rw [List.countP_append]
  cases hq : row.stripe_customer_id == cid with
  | false => simpa [List.countP_cons, hq] using hc
  | true =>
    have hkey : row.stripe_customer_id = cid := beq_iff_eq.mp hq
    have h0 : l.countP (fun r => r.stripe_customer_id == cid) = 0 := by
      rw [List.countP_eq_zero]
      intro a ha hpa
      have hne := List.find?_eq_none.mp hnone a ha
      apply hne
      rw [hkey]
      exact hpa
    simp [h0, List.countP_cons, hq]

theorem find?_append_created (l : List BillingCustomer) (row : BillingCustomer)
    (key : String)
    (hlk : l.find? (fun r => r.stripe_customer_id == key) = none)
    (hcid : row.stripe_customer_id = key) :
    (l ++ [row]).find? (fun r => r.stripe_customer_id == key) = some row := by
  rw [List.find?_append, hlk]
  simp [List.find?, hcid]

/-- C3: customer resolution is idempotent. Provided the provider's customer
retrieval is ID-consistent (a fetched record carries the requested ID),
running `find_or_create_billing_customer` a second time on the store left
by a first run with the same input returns the same outcome and changes
nothing; a run preserves "at most one row per provider customer ID"; and
once a row exists for the input's provider customer ID, a call returns it
with no fetch and no write (empty effect trace, store untouched). -/
theorem find_or_create_idempotent (st : StripeState) (db : Db)
    (x : Expandable Customer)
    (hst : ∀ i c, st.retrieveCustomer i = Except.ok c → c.id = i) :
    ((find_or_create_billing_customer st
        (find_or_create_billing_customer st db x).2.1 x).1 =
      (find_or_create_billing_customer st db x).1 ∧
     (find_or_create_billing_customer st
        (find_or_create_billing_customer st db x).2.1 x).2.1 =
      (find_or_create_billing_customer st db x).2.1) ∧
    (∀ cid, countCustomerRows db cid ≤ 1 →
      countCustomerRows (find_or_create_billing_customer st db x).2.1 cid ≤ 1) ∧
    (∀ bc, get_billing_customer_by_stripe_customer_id db (customerIdOf x) =
        some bc →
      find_or_create_billing_customer st db x = (Except.ok (some bc), db, [])) := by
  cases hlk : get_billing_customer_by_stripe_customer_id db (customerIdOf x) with
  | some bc0 =>
    have hF := find_or_create_fast_path st db x bc0 hlk
    refine ⟨⟨by simp [hF], by simp [hF]⟩, ?_, ?_⟩
    · intro cid hc
      simpa [hF] using hc
    · intro bc hbc
      obtain rfl : bc0 = bc := Option.some.inj hbc
      exact hF
  | none =>
    have hlk' : db.billingCustomers.find?
        (fun r => r.stripe_customer_id == customerIdOf x) = none := hlk
    cases x with
    | id i =>
      simp only [customerIdOf] at hlk hlk'
      cases hr : st.retrieveCustomer i with
      | error e =>
        have hF : find_or_create_billing_customer st db (Expandable.id i) =
            (Except.error Err.stripeApiError, db, [Effect.fetchCustomer i]) := by
          simp [find_or_create_billing_customer, customerIdOf, hlk, hr]
        refine ⟨⟨by simp [hF], by simp [hF]⟩, ?_, ?_⟩
        · intro cid hc
          simpa [hF] using hc
        · intro bc hbc
          exact Option.noConfusion hbc
      | ok c =>
        have hcid : c.id = i := hst i c hr
        cases he : c.email with
        | none =>
          have hF : find_or_create_billing_customer st db (Expandable.id i) =
              (Except.ok none, db, [Effect.fetchCustomer i]) := by
            simp [find_or_create_billing_customer, customerIdOf, hlk, hr, he]
          refine ⟨⟨by simp [hF], by simp [hF]⟩, ?_, ?_⟩
          · intro cid hc
            simpa [hF] using hc
          · intro bc hbc
            exact Option.noConfusion hbc
        | some email =>
          cases hu : get_user_by_email db email with
          | none =>
            have hF : find_or_create_billing_customer st db (Expandable.id i) =
                (Except.ok none, db, [Effect.fetchCustomer i]) := by
              simp [find_or_create_billing_customer, customerIdOf, hlk, hr, he, hu]
            refine ⟨⟨by simp [hF], by simp [hF]⟩, ?_, ?_⟩
            · intro cid hc
              simpa [hF] using hc
            · intro bc hbc
              exact Option.noConfusion hbc
          | some u =>
            have hF : find_or_create_billing_customer st db (Expandable.id i) =
                (Except.ok (some { id := db.nextBillingCustomerId
                                   user_id := u.id
                                   stripe_customer_id := c.id }),
                 { db with
                     billingCustomers := db.billingCustomers ++
                       [{ id := db.nextBillingCustomerId
                          user_id := u.id
                          stripe_customer_id := c.id }]
                     nextBillingCustomerId := db.nextBillingCustomerId + 1 },
                 [Effect.fetchCustomer i, Effect.createBillingCustomer c.id]) := by
              simp [find_or_create_billing_customer, customerIdOf, hlk, hr, he,
                hu, create_billing_customer]
            have hlk2 : get_billing_customer_by_stripe_customer_id
                (find_or_create_billing_customer st db (Expandable.id i)).2.1
                (customerIdOf (Expandable.id i)) =
                some { id := db.nextBillingCustomerId
                       user_id := u.id
                       stripe_customer_id := c.id } := by
              rw [hF]
              exact find?_append_created db.billingCustomers _ i hlk' hcid
            have hF2 := find_or_create_fast_path st
              (find_or_create_billing_customer st db (Expandable.id i)).2.1
              (Expandable.id i) _ hlk2
            refine ⟨⟨?_, ?_⟩, ?_, ?_⟩
            · rw [hF2, hF]
            · rw [hF2]
            · intro cid hc
              rw [hF]
              exact countP_append_singleton_le_one hc (by simpa [hcid] using hlk')
            · intro bc hbc
              exact Option.noConfusion hbc
    | object c =>
      simp only [customerIdOf] at hlk hlk'
      cases he : c.email with
      | none =>
        have hF : find_or_create_billing_customer st db (Expandable.object c) =
            (Except.ok none, db, []) := by
          simp [find_or_create_billing_customer, customerIdOf, hlk, he]
        refine ⟨⟨by simp [hF], by simp [hF]⟩, ?_, ?_⟩
        · intro cid hc
          simpa [hF] using hc
        · intro bc hbc
          exact Option.noConfusion hbc
      | some email =>
        cases hu : get_user_by_email db email with
        | none =>
          have hF : find_or_create_billing_customer st db (Expandable.object c) =
              (Except.ok none, db, []) := by
            simp [find_or_create_billing_customer, customerIdOf, hlk, he, hu]
          refine ⟨⟨by simp [hF], by simp [hF]⟩, ?_, ?_⟩
          · intro cid hc
            simpa [hF] using hc
          · intro bc hbc
            exact Option.noConfusion hbc
        | some u =>
          have hF : find_or_create_billing_customer st db (Expandable.object c) =
              (Except.ok (some { id := db.nextBillingCustomerId
                                 user_id := u.id
                                 stripe_customer_id := c.id }),
               { db with
                   billingCustomers := db.billingCustomers ++
                     [{ id := db.nextBillingCustomerId
                        user_id := u.id
                        stripe_customer_id := c.id }]
                   nextBillingCustomerId := db.nextBillingCustomerId + 1 },
               [Effect.createBillingCustomer c.id]) := by
            simp [find_or_create_billing_customer, customerIdOf, hlk, he, hu,
              create_billing_customer]
          have hlk2 : get_billing_customer_by_stripe_customer_id
              (find_or_create_billing_customer st db (Expandable.object c)).2.1
              (customerIdOf (Expandable.object c)) =
              some { id := db.nextBillingCustomerId
                     user_id := u.id
                     stripe_customer_id := c.id } := by
            rw [hF]
            exact find?_append_created db.billingCustomers _ c.id hlk' rfl
          have hF2 := find_or_create_fast_path st
            (find_or_create_billing_customer st db (Expandable.object c)).2.1
            (Expandable.object c) _ hlk2
          refine ⟨⟨?_, ?_⟩, ?_, ?_⟩
          · rw [hF2, hF]
          · rw [hF2]
          · intro cid hc
            rw [hF]
            exact countP_append_singleton_le_one hc (by simpa using hlk')
          · intro bc hbc
            exact Option.noConfusion hbc

/-- A concrete materialized provider customer record used by witnesses. -/
def custW : Customer := { id := "cus_1", email := some "a@example.com" }

/-- Witness for C3 at a concrete customer against a store that already has
its row (the ID-consistency hypothesis holds vacuously for the stub
client, which never returns a record). -/
theorem find_or_create_idempotent_witness :
    (∀ i c, stubStripe.retrieveCustomer i = Except.ok c → c.id = i) ∧
    (((find_or_create_billing_customer stubStripe
        (find_or_create_billing_customer stubStripe dbWithCustomer
          (Expandable.object custW)).2.1 (Expandable.object custW)).1 =
      (find_or_create_billing_customer stubStripe dbWithCustomer
        (Expandable.object custW)).1 ∧
      (find_or_create_billing_customer stubStripe
        (find_or_create_billing_customer stubStripe dbWithCustomer
          (Expandable.object custW)).2.1 (Expandable.object custW)).2.1 =
      (find_or_create_billing_customer stubStripe dbWithCustomer
        (Expandable.object custW)).2.1) ∧
     (∀ cid, countCustomerRows dbWithCustomer cid ≤ 1 →
       countCustomerRows (find_or_create_billing_customer stubStripe
         dbWithCustomer (Expandable.object custW)).2.1 cid ≤ 1) ∧
     (∀ bc, get_billing_customer_by_stripe_customer_id dbWithCustomer
         (customerIdOf (Expandable.object custW)) = some bc →
       find_or_create_billing_customer stubStripe dbWithCustomer
         (Expandable.object custW) = (Except.ok (some bc), dbWithCustomer, []))) :=
  ⟨(fun i c h => nomatch h),
   find_or_create_idempotent stubStripe dbWithCustomer (Expandable.object custW)
     (fun i c h => nomatch h)⟩
